import Mathlib

/-!
Shallow embedding of the rate-limiting core of the repository
(file src/core/rate_limiter.py): rule registry, per-identifier counter
state, the four checking algorithms, reset and cleanup.

Modelling conventions:
* Python floats (time values, token and water levels) are modelled as
  exact rationals.
* Python ints are modelled as Int.
* A Python dict is modelled as an insertion-ordered association list with
  lookup returning the first matching key.
* A code path that would raise a Python exception (KeyError on a counter
  of the wrong shape, ZeroDivisionError) is modelled as returning none.
* Python truthiness of an optional int b in a boolean position or in an
  or-expression is b present and nonzero.
-/

/-- The four strategies of the RateLimitStrategy enum. -/
inductive RateLimitStrategy where
  | fixed_window
  | sliding_window
  | token_bucket
  | leaky_bucket
deriving DecidableEq, Repr

/-- The RateLimitRule dataclass. -/
structure RateLimitRule where
  strategy : RateLimitStrategy
  requests_per_period : Int
  period_seconds : Int
  burst_limit : Option Int := none
  cost_per_request : Int := 1
deriving DecidableEq, Repr

/-- The per-(rule, identifier) counter dicts.  Each constructor carries the
fields the reference code stores for the corresponding strategy. -/
inductive Counter where
  | fixedWindow (count : Int) (window : Int) (reset_time : Int)
  | slidingWindow (timestamps : List ℚ) (count : Int)
  | tokenBucket (tokens : ℚ) (last_update : ℚ)
  | leakyBucket (water_level : ℚ) (last_leak : ℚ) (capacity : ℚ)
deriving DecidableEq, Repr

/-- The info dicts returned by check_limit, one constructor per literal
dict in the source. -/
inductive CheckInfo where
  | noRule
  | fixedBurstDeny (reset_in : Int) (current : Int) (limit : Int)
  | fixedRateDeny (reset_in : Int) (current : Int) (limit : Int)
  | fixedAllow (remaining : Int) (reset_in : Int)
  | slidingDeny (reset_in : ℚ) (current : Int) (limit : Int)
  | slidingAllow (remaining : Int) (reset_in : ℚ)
  | tokenDeny (wait_time : ℚ) (current_tokens : ℚ) (tokens_needed : Int)
  | tokenAllow (tokens_remaining : ℚ) (refill_rate : ℚ) (time_to_full : ℚ)
  | leakyDeny (wait_time : ℚ) (current_level : ℚ) (capacity : ℚ)
  | leakyAllow (water_level : ℚ) (drain_time : ℚ) (capacity_remaining : ℚ)
deriving DecidableEq, Repr

/-- The "reason" entry of the info dict, when present. -/
def CheckInfo.reason : CheckInfo → Option String
  | CheckInfo.noRule => some "no_rule"
  | CheckInfo.fixedBurstDeny _ _ _ => some "burst_limit_exceeded"
  | CheckInfo.fixedRateDeny _ _ _ => some "rate_limit_exceeded"
  | CheckInfo.slidingDeny _ _ _ => some "rate_limit_exceeded"
  | CheckInfo.tokenDeny _ _ _ => some "insufficient_tokens"
  | CheckInfo.leakyDeny _ _ _ => some "bucket_overflow"
  | _ => none

/-- Python dict lookup on an association list (first match). -/
def dictGet {β : Type} : List (String × β) → String → Option β
  | [], _ => none
  | (k', v) :: t, k => if k' = k then some v else dictGet t k

/-- Python dict assignment: replace in place, else append. -/
def dictSet {β : Type} : List (String × β) → String → β → List (String × β)
  | [], k, v => [(k, v)]
  | (k', v') :: t, k, v =>
      if k' = k then (k, v) :: t else (k', v') :: dictSet t k v

/-- Python del on a dict key. -/
def dictDel {β : Type} (l : List (String × β)) (k : String) : List (String × β) :=
  l.filter (fun p => p.1 ≠ k)

/-- Python int() truncation of a rational (toward zero), as applied to
time.time() in the fixed-window strategy. -/
def pyInt (q : ℚ) : Int := q.num.tdiv (q.den : Int)

/-- Python modulo for ints (sign follows the divisor), as in
now - (now mod period_seconds). -/
def pyMod (a b : Int) : Int := Int.fmod a b

/-- Python (b or d) for an optional int b: b when present and nonzero,
else d.  Used for (rule.burst_limit or rule.requests_per_period). -/
def pyOr (o : Option Int) (d : Int) : Int :=
  match o with
  | some b => if b = 0 then d else b
  | none => d

/-- Bucket capacity, rule.burst_limit or rule.requests_per_period. -/
def capInt (rule : RateLimitRule) : Int := pyOr rule.burst_limit rule.requests_per_period

/-- Bucket capacity as a rational. -/
def capQ (rule : RateLimitRule) : ℚ := (capInt rule : ℚ)

/-- Refill / drain rate: requests_per_period divided by period_seconds. -/
def refillRate (rule : RateLimitRule) : ℚ :=
  (rule.requests_per_period : ℚ) / (rule.period_seconds : ℚ)

/-- min of a nonempty Python list, with a default for the empty case
(the source guards emptiness where it matters). -/
def listMinD (l : List ℚ) (d : ℚ) : ℚ :=
  match l with
  | [] => d
  | h :: t => t.foldl min h

/-- The limiter object: the rules dict and the counters dict (locks carry
no observable state and are omitted). -/
structure RateLimiter where
  rules : List (String × RateLimitRule)
  counters : List (String × Counter)
deriving DecidableEq, Repr

/-- counter_key / lock_key string for a (rule key, identifier) pair. -/
def counterKey (key identifier : String) : String := key ++ ":" ++ identifier

/-- add_rule: insert or overwrite, no validation. -/
def add_rule (s : RateLimiter) (key : String) (rule : RateLimitRule) : RateLimiter :=
  { s with rules := dictSet s.rules key rule }

/-- Fixed-window pre-step (lines 105-116): compute the current window
boundary and reset the counter when absent, of another shape (its window
field reads as None), or from a stale window.  Returns
(count, window, reset_time). -/
def fixedPre (rule : RateLimitRule) (cnt : Option Counter) (nowI : Int) : Int × Int × Int :=
  let window_start := nowI - pyMod nowI rule.period_seconds
  match cnt with
  | some (Counter.fixedWindow count window reset_time) =>
      if window = window_start then (count, window, reset_time)
      else (0, window_start, window_start + rule.period_seconds)
  | _ => (0, window_start, window_start + rule.period_seconds)

/-- _check_fixed_window.  none models the ZeroDivisionError of
now mod 0 when period_seconds = 0. -/
def checkFixedWindow (rule : RateLimitRule) (cnt : Option Counter) (nowI cost : Int) :
    Option ((Bool × CheckInfo) × Counter) :=
  if rule.period_seconds = 0 then none
  else
    match fixedPre rule cnt nowI with
    | (count, window, reset_time) =>
      let burst_hit : Bool :=
        match rule.burst_limit with
        | some b => if b = 0 then false else decide (b ≤ count)
        | none => false
      if burst_hit then
        some ((false,
               CheckInfo.fixedBurstDeny (reset_time - nowI) count (pyOr rule.burst_limit 0)),
              Counter.fixedWindow count window reset_time)
      else
        let new_count := count + cost
        if rule.requests_per_period < new_count then
          some ((false,
                 CheckInfo.fixedRateDeny (reset_time - nowI) count rule.requests_per_period),
                Counter.fixedWindow count window reset_time)
        else
          some ((true,
                 CheckInfo.fixedAllow (rule.requests_per_period - new_count) (reset_time - nowI)),
                Counter.fixedWindow new_count window reset_time)

/-- Sliding-window pre-step (lines 154-164): initialize an empty counter
when absent, then prune timestamps at or before now - period_seconds.
none models the KeyError on a counter of another shape. -/
def slidingPre (cnt : Option Counter) (window_start : ℚ) : Option (List ℚ) :=
  match cnt with
  | none => some []
  | some (Counter.slidingWindow ts _) => some (ts.filter (fun t => window_start < t))
  | some _ => none

/-- _check_sliding_window. -/
def checkSlidingWindow (rule : RateLimitRule) (cnt : Option Counter) (now : ℚ) (cost : Int) :
    Option ((Bool × CheckInfo) × Counter) :=
  let window_start := now - (rule.period_seconds : ℚ)
  match slidingPre cnt window_start with
  | none => none
  | some ts =>
      let count : Int := ts.length
      if rule.requests_per_period < count + cost then
        let oldest := listMinD ts now
        let reset_in := oldest + (rule.period_seconds : ℚ) - now
        some ((false,
               CheckInfo.slidingDeny (max 0 reset_in) count rule.requests_per_period),
              Counter.slidingWindow ts count)
      else
        let ts' := ts ++ List.replicate cost.toNat now
        let count' := count + cost
        match ts' with
        | [] =>
            some ((true,
                   CheckInfo.slidingAllow rule.requests_per_period
                     (now + (rule.period_seconds : ℚ) - now)),
                  Counter.slidingWindow ts' count')
        | h :: t =>
            some ((true,
                   CheckInfo.slidingAllow (rule.requests_per_period - count')
                     (listMinD (h :: t) now + (rule.period_seconds : ℚ) - now)),
                  Counter.slidingWindow ts' count')

/-- Token-bucket pre-step (lines 203-209): a fresh bucket starts full at
capacity with last_update = now.  none models the KeyError on a counter
of another shape. -/
def tokenPre (rule : RateLimitRule) (cnt : Option Counter) (now : ℚ) : Option (ℚ × ℚ) :=
  match cnt with
  | none => some (capQ rule, now)
  | some (Counter.tokenBucket tokens last_update) => some (tokens, last_update)
  | some _ => none

/-- Refill step (lines 212-217): add elapsed * rate tokens, capped at
capacity. -/
def tokenRefill (rule : RateLimitRule) (tokens last_update now : ℚ) : ℚ :=
  min (capQ rule) (tokens + (now - last_update) * refillRate rule)

/-- The numerator of time_to_full (line 239).  Python parses
(rule.burst_limit or rule.requests_per_period - counter.tokens) as
(rule.burst_limit or (rule.requests_per_period - counter.tokens)). -/
def timeToFullNum (rule : RateLimitRule) (tokens : ℚ) : ℚ :=
  match rule.burst_limit with
  | some b => if b = 0 then (rule.requests_per_period : ℚ) - tokens else (b : ℚ)
  | none => (rule.requests_per_period : ℚ) - tokens

/-- _check_token_bucket.  none models the ZeroDivisionError when
period_seconds = 0 or when a division by a zero refill rate is reached,
and the KeyError on a counter of another shape. -/
def checkTokenBucket (rule : RateLimitRule) (cnt : Option Counter) (now : ℚ) (cost : Int) :
    Option ((Bool × CheckInfo) × Counter) :=
  if rule.period_seconds = 0 then none
  else
    match tokenPre rule cnt now with
    | none => none
    | some (tokens, last_update) =>
        let refill := refillRate rule
        let tokens1 := tokenRefill rule tokens last_update now
        if tokens1 < (cost : ℚ) then
          if refill = 0 then none
          else
            some ((false,
                   CheckInfo.tokenDeny (((cost : ℚ) - tokens1) / refill) tokens1 cost),
                  Counter.tokenBucket tokens1 now)
        else
          if refill = 0 then none
          else
            let tokens2 := tokens1 - (cost : ℚ)
            some ((true,
                   CheckInfo.tokenAllow tokens2 refill (timeToFullNum rule tokens2 / refill)),
                  Counter.tokenBucket tokens2 now)

/-- Leaky-bucket pre-step (lines 253-258): a fresh bucket starts empty
with last_leak = now and stores its capacity.  none models the KeyError
on a counter of another shape. -/
def leakyPre (rule : RateLimitRule) (cnt : Option Counter) (now : ℚ) : Option (ℚ × ℚ × ℚ) :=
  match cnt with
  | none => some (0, now, capQ rule)
  | some (Counter.leakyBucket water last_leak capacity) => some (water, last_leak, capacity)
  | some _ => none

/-- Drain step (lines 263-265): leak elapsed * rate units, floored at 0. -/
def leakyDrain (rule : RateLimitRule) (water last_leak now : ℚ) : ℚ :=
  max 0 (water - (now - last_leak) * refillRate rule)

/-- _check_leaky_bucket.  none models the ZeroDivisionError when
period_seconds = 0 or when a division by a zero drain rate is reached,
and the KeyError on a counter of another shape. -/
def checkLeakyBucket (rule : RateLimitRule) (cnt : Option Counter) (now : ℚ) (cost : Int) :
    Option ((Bool × CheckInfo) × Counter) :=
  if rule.period_seconds = 0 then none
  else
    match leakyPre rule cnt now with
    | none => none
    | some (water, last_leak, capacity) =>
        let rate := refillRate rule
        let water1 := leakyDrain rule water last_leak now
        if capacity < water1 + (cost : ℚ) then
          if rate = 0 then none
          else
            some ((false,
                   CheckInfo.leakyDeny ((water1 + (cost : ℚ) - capacity) / rate) water1 capacity),
                  Counter.leakyBucket water1 now capacity)
        else
          if rate = 0 then none
          else
            let water2 := water1 + (cost : ℚ)
            some ((true,
                   CheckInfo.leakyAllow water2 (water2 / rate) (capacity - water2)),
                  Counter.leakyBucket water2 now capacity)

/-- check_limit: no rule means unconditionally allowed with reason
no_rule and untouched state; otherwise dispatch on the strategy and store
the resulting counter under the pair's counter_key.  none models a
propagated Python exception. -/
def check_limit (s : RateLimiter) (key identifier : String) (now : ℚ) (cost : Int) :
    Option ((Bool × CheckInfo) × RateLimiter) :=
  match dictGet s.rules key with
  | none => some ((true, CheckInfo.noRule), s)
  | some rule =>
      let ck := counterKey key identifier
      let res :=
        match rule.strategy with
        | RateLimitStrategy.fixed_window =>
            checkFixedWindow rule (dictGet s.counters ck) (pyInt now) cost
        | RateLimitStrategy.sliding_window =>
            checkSlidingWindow rule (dictGet s.counters ck) now cost
        | RateLimitStrategy.token_bucket =>
            checkTokenBucket rule (dictGet s.counters ck) now cost
        | RateLimitStrategy.leaky_bucket =>
            checkLeakyBucket rule (dictGet s.counters ck) now cost
      res.map (fun r => (r.1, { s with counters := dictSet s.counters ck r.2 }))

/-- check_limit with the cost parameter left at its declared default,
which in the source is the literal 1. -/
def check_limit_default (s : RateLimiter) (key identifier : String) (now : ℚ) :
    Option ((Bool × CheckInfo) × RateLimiter) :=
  check_limit s key identifier now 1

/-- reset_limit: unconditionally delete the pair's counter entry. -/
def reset_limit (s : RateLimiter) (key identifier : String) : RateLimiter :=
  { s with counters := dictDel s.counters (counterKey key identifier) }

/-- Eviction test of cleanup_old_entries: a counter with a last_update
field (token bucket), else one with a last_leak field (leaky bucket), is
evicted when its age exceeds max_age_seconds; other shapes never are. -/
def staleCounter (now : ℚ) (max_age_seconds : Int) : Counter → Bool
  | Counter.tokenBucket _ last_update => decide ((max_age_seconds : ℚ) < now - last_update)
  | Counter.leakyBucket _ last_leak _ => decide ((max_age_seconds : ℚ) < now - last_leak)
  | _ => false

/-- cleanup_old_entries: sweep the counters dict and delete the stale
bucket entries. -/
def cleanup_old_entries (s : RateLimiter) (now : ℚ) (max_age_seconds : Int := 86400) :
    RateLimiter :=
  { s with counters := s.counters.filter (fun p => ! staleCounter now max_age_seconds p.2) }

/-- Sequential execution of a list of (now, cost) checks for one pair. -/
def runChecks (s : RateLimiter) (key identifier : String) :
    List (ℚ × Int) → Option RateLimiter
  | [] => some s
  | (now, cost) :: rest =>
      match check_limit s key identifier now cost with
      | none => none
      | some (_, s') => runChecks s' key identifier rest

/-- Bounds invariant of the two bucket strategies for one pair: the
stored tokens lie in [0, capacity], the stored water level in
[0, capacity]. -/
def bucketLevelOk (rule : RateLimitRule) (ck : String) (s : RateLimiter) : Prop :=
  match dictGet s.counters ck with
  | none => True
  | some (Counter.tokenBucket tokens _) => 0 ≤ tokens ∧ tokens ≤ capQ rule
  | some (Counter.leakyBucket water _ capacity) =>
      0 ≤ water ∧ water ≤ capacity ∧ capacity = capQ rule
  | some _ => False

/-- Strengthened invariant threading what induction needs between checks:
the counter shape matches the rule strategy and the stored last-activity
timestamp is at most t0. -/
def bucketOk (rule : RateLimitRule) (ck : String) (t0 : ℚ) (s : RateLimiter) : Prop :=
  match dictGet s.counters ck with
  | none => True
  | some (Counter.tokenBucket tokens last_update) =>
      rule.strategy = RateLimitStrategy.token_bucket ∧
        0 ≤ tokens ∧ tokens ≤ capQ rule ∧ last_update ≤ t0
  | some (Counter.leakyBucket water last_leak capacity) =>
      rule.strategy = RateLimitStrategy.leaky_bucket ∧
        0 ≤ water ∧ water ≤ capacity ∧ capacity = capQ rule ∧ last_leak ≤ t0
  | some _ => False


/-! ### Concrete fixtures used to evaluate the embedding -/

/-- A limiter with no rules and no counters. -/
def emptyLimiter : RateLimiter := { rules := [], counters := [] }

/-- Token-bucket rule 10 per 60 s with burst 20. -/
def ruleTokenA : RateLimitRule :=
  { strategy := RateLimitStrategy.token_bucket, requests_per_period := 10,
    period_seconds := 60, burst_limit := some 20, cost_per_request := 1 }

/-- Limiter holding only ruleTokenA under key k. -/
def sTok : RateLimiter := { rules := [("k", ruleTokenA)], counters := [] }

/-- Fixed-window rule 3 per 60 s whose cost_per_request is 5. -/
def ruleCpr5 : RateLimitRule :=
  { strategy := RateLimitStrategy.fixed_window, requests_per_period := 3,
    period_seconds := 60, burst_limit := none, cost_per_request := 5 }

/-- Limiter holding only ruleCpr5 under key k. -/
def sCpr5 : RateLimiter := { rules := [("k", ruleCpr5)], counters := [] }

/-- Fixed-window rule 3 per 60 s whose cost_per_request is 1. -/
def ruleCpr1 : RateLimitRule :=
  { strategy := RateLimitStrategy.fixed_window, requests_per_period := 3,
    period_seconds := 60, burst_limit := none, cost_per_request := 1 }

/-- Limiter holding only ruleCpr1 under key k. -/
def sCpr1 : RateLimiter := { rules := [("k", ruleCpr1)], counters := [] }

/-- An invalid rule: its period_seconds is zero. -/
def badRule : RateLimitRule :=
  { strategy := RateLimitStrategy.fixed_window, requests_per_period := 10,
    period_seconds := 0, burst_limit := none, cost_per_request := 1 }

/-- Fixed-window rule 100 per 60 s with burst 2. -/
def ruleFB : RateLimitRule :=
  { strategy := RateLimitStrategy.fixed_window, requests_per_period := 100,
    period_seconds := 60, burst_limit := some 2, cost_per_request := 1 }

/-- Limiter with ruleFB and a counter already at the burst ceiling. -/
def sFB : RateLimiter :=
  { rules := [("k", ruleFB)], counters := [("k:u", Counter.fixedWindow 2 0 60)] }

/-- Sliding-window rule 3 per 60 s. -/
def ruleSlid : RateLimitRule :=
  { strategy := RateLimitStrategy.sliding_window, requests_per_period := 3,
    period_seconds := 60, burst_limit := none, cost_per_request := 1 }

/-- Limiter holding only ruleSlid under key k, no counters. -/
def sSlid : RateLimiter := { rules := [("k", ruleSlid)], counters := [] }

/-- Sliding-window rule 2 per 60 s. -/
def ruleSlid2 : RateLimitRule :=
  { strategy := RateLimitStrategy.sliding_window, requests_per_period := 2,
    period_seconds := 60, burst_limit := none, cost_per_request := 1 }

/-- Limiter with ruleSlid2 and one recorded timestamp at t = 10. -/
def sSlid2 : RateLimiter :=
  { rules := [("k", ruleSlid2)], counters := [("k:u", Counter.slidingWindow [10] 1)] }

/-- Limiter with ruleTokenA and a stale token counter for the pair. -/
def sTokUsed : RateLimiter :=
  { rules := [("k", ruleTokenA)], counters := [("k:u", Counter.tokenBucket 3 0)] }

/-- Token-bucket rule 10 per 60 s without burst. -/
def ruleTokenB : RateLimitRule :=
  { strategy := RateLimitStrategy.token_bucket, requests_per_period := 10,
    period_seconds := 60, burst_limit := none, cost_per_request := 1 }

/-- Limiter holding only ruleTokenB under key k. -/
def sTokB : RateLimiter := { rules := [("k", ruleTokenB)], counters := [] }

/-- A mixed counter table: one window entry and one old bucket entry. -/
def sMixed : RateLimiter :=
  { rules := [],
    counters := [("a:x", Counter.fixedWindow 1 0 60), ("b:y", Counter.tokenBucket 5 0)] }

/-! ### Helper lemmas -/

theorem dictGet_dictSet_self {β : Type} (l : List (String × β)) (k : String) (v : β) :
    dictGet (dictSet l k v) k = some v := by
  induction l with
  | nil => simp [dictSet, dictGet]
  | cons p t ih =>
      obtain ⟨k', v'⟩ := p
      by_cases h : k' = k
      · simp [dictSet, h, dictGet]
      · simp [dictSet, h, dictGet, ih]

theorem dictGet_dictDel_self {β : Type} (l : List (String × β)) (k : String) :
    dictGet (dictDel l k) k = none := by
  induction l with
  | nil => simp [dictDel, dictGet]
  | cons p t ih =>
      obtain ⟨k', v'⟩ := p
      by_cases h : k' = k
      · simpa [dictDel, h] using ih
      · simpa [dictDel, h, dictGet] using ih

theorem reset_limit_rules (s : RateLimiter) (key identifier : String) :
    (reset_limit s key identifier).rules = s.rules := rfl

theorem reset_limit_counter_none (s : RateLimiter) (key identifier : String) :
    dictGet (reset_limit s key identifier).counters (counterKey key identifier) = none :=
  dictGet_dictDel_self _ _

theorem check_limit_eq_fixed (s : RateLimiter) (key identifier : String) (now : ℚ)
    (cost : Int) (rule : RateLimitRule)
    (hr : dictGet s.rules key = some rule)
    (hstrat : rule.strategy = RateLimitStrategy.fixed_window) :
    check_limit s key identifier now cost =
      (checkFixedWindow rule (dictGet s.counters (counterKey key identifier))
          (pyInt now) cost).map
        (fun r => (r.1,
          { s with counters := dictSet s.counters (counterKey key identifier) r.2 })) := by
  simp only [check_limit, hr, hstrat]

theorem check_limit_eq_sliding (s : RateLimiter) (key identifier : String) (now : ℚ)
    (cost : Int) (rule : RateLimitRule)
    (hr : dictGet s.rules key = some rule)
    (hstrat : rule.strategy = RateLimitStrategy.sliding_window) :
    check_limit s key identifier now cost =
      (checkSlidingWindow rule (dictGet s.counters (counterKey key identifier)) now cost).map
        (fun r => (r.1,
          { s with counters := dictSet s.counters (counterKey key identifier) r.2 })) := by
  simp only [check_limit, hr, hstrat]

theorem check_limit_eq_token (s : RateLimiter) (key identifier : String) (now : ℚ)
    (cost : Int) (rule : RateLimitRule)
    (hr : dictGet s.rules key = some rule)
    (hstrat : rule.strategy = RateLimitStrategy.token_bucket) :
    check_limit s key identifier now cost =
      (checkTokenBucket rule (dictGet s.counters (counterKey key identifier)) now cost).map
        (fun r => (r.1,
          { s with counters := dictSet s.counters (counterKey key identifier) r.2 })) := by
  simp only [check_limit, hr, hstrat]

theorem check_limit_eq_leaky (s : RateLimiter) (key identifier : String) (now : ℚ)
    (cost : Int) (rule : RateLimitRule)
    (hr : dictGet s.rules key = some rule)
    (hstrat : rule.strategy = RateLimitStrategy.leaky_bucket) :
    check_limit s key identifier now cost =
      (checkLeakyBucket rule (dictGet s.counters (counterKey key identifier)) now cost).map
        (fun r => (r.1,
          { s with counters := dictSet s.counters (counterKey key identifier) r.2 })) := by
  simp only [check_limit, hr, hstrat]

theorem checkFixedWindow_allow (rule : RateLimitRule) (cnt : Option Counter)
    (nowI cost count window reset_time : Int)
    (hper : rule.period_seconds ≠ 0)
    (hpre : fixedPre rule cnt nowI = (count, window, reset_time))
    (hburst : ∀ b, rule.burst_limit = some b → b = 0 ∨ count < b)
    (hquota : count + cost ≤ rule.requests_per_period) :
    checkFixedWindow rule cnt nowI cost =
      some ((true,
             CheckInfo.fixedAllow (rule.requests_per_period - (count + cost))
               (reset_time - nowI)),
            Counter.fixedWindow (count + cost) window reset_time) := by
  have hbh :
      (match rule.burst_limit with
       | some b => if b = 0 then false else decide (b ≤ count)
       | none => false) = false := by
    cases hb : rule.burst_limit with
    | none => rfl
    | some b =>
        rcases hburst b hb with h0 | hlt
        · simp [h0]
        · simp [decide_eq_false (not_le.mpr hlt)]
  simp only [checkFixedWindow, if_neg hper, hpre, hbh, Bool.false_eq_true, if_false,
    if_neg (not_lt.mpr hquota)]

theorem checkSlidingWindow_allow (rule : RateLimitRule) (cnt : Option Counter)
    (now : ℚ) (cost : Int) (ts : List ℚ)
    (hpre : slidingPre cnt (now - (rule.period_seconds : ℚ)) = some ts)
    (hquota : (ts.length : Int) + cost ≤ rule.requests_per_period) :
    ∃ info, checkSlidingWindow rule cnt now cost =
      some ((true, info),
            Counter.slidingWindow (ts ++ List.replicate cost.toNat now)
              ((ts.length : Int) + cost)) := by
  simp only [checkSlidingWindow, hpre, if_neg (not_lt.mpr hquota)]
  cases h : ts ++ List.replicate cost.toNat now with
  | nil => exact ⟨_, rfl⟩
  | cons a l => exact ⟨_, rfl⟩

theorem checkTokenBucket_allow (rule : RateLimitRule) (cnt : Option Counter)
    (now : ℚ) (cost : Int) (tokens last_update : ℚ)
    (hper : rule.period_seconds ≠ 0)
    (hrefill : refillRate rule ≠ 0)
    (hpre : tokenPre rule cnt now = some (tokens, last_update))
    (henough : (cost : ℚ) ≤ tokenRefill rule tokens last_update now) :
    checkTokenBucket rule cnt now cost =
      some ((true,
             CheckInfo.tokenAllow (tokenRefill rule tokens last_update now - (cost : ℚ))
               (refillRate rule)
               (timeToFullNum rule (tokenRefill rule tokens last_update now - (cost : ℚ)) /
                 refillRate rule)),
            Counter.tokenBucket (tokenRefill rule tokens last_update now - (cost : ℚ)) now) := by
  simp only [checkTokenBucket, if_neg hper, hpre, if_neg (not_lt.mpr henough),
    if_neg hrefill]

theorem checkLeakyBucket_allow (rule : RateLimitRule) (cnt : Option Counter)
    (now : ℚ) (cost : Int) (water last_leak capacity : ℚ)
    (hper : rule.period_seconds ≠ 0)
    (hrate : refillRate rule ≠ 0)
    (hpre : leakyPre rule cnt now = some (water, last_leak, capacity))
    (hroom : leakyDrain rule water last_leak now + (cost : ℚ) ≤ capacity) :
    checkLeakyBucket rule cnt now cost =
      some ((true,
             CheckInfo.leakyAllow (leakyDrain rule water last_leak now + (cost : ℚ))
               ((leakyDrain rule water last_leak now + (cost : ℚ)) / refillRate rule)
               (capacity - (leakyDrain rule water last_leak now + (cost : ℚ)))),
            Counter.leakyBucket (leakyDrain rule water last_leak now + (cost : ℚ)) now
              capacity) := by
  simp only [checkLeakyBucket, if_neg hper, hpre, if_neg (not_lt.mpr hroom), if_neg hrate]

theorem refillRate_pos (rule : RateLimitRule)
    (hper : 0 < rule.period_seconds) (hqpp : 0 < rule.requests_per_period) :
    0 < refillRate rule := by
  have h1 : (0 : ℚ) < (rule.requests_per_period : ℚ) := by exact_mod_cast hqpp
  have h2 : (0 : ℚ) < (rule.period_seconds : ℚ) := by exact_mod_cast hper
  exact div_pos h1 h2

/-- C1: for every registered rule of any of the four strategies and every
identifier, a check whose cost does not exceed the pre-check remaining
quota/capacity (after window roll / pruning / refill / drain, and with the
fixed-window burst ceiling not already reached) returns allowed = true and
moves the stored usage metric by exactly cost: the fixed/sliding window
count and the leaky-bucket water level grow by cost, the token-bucket
token count shrinks by cost. -/
theorem c1_allowed_check_moves_usage_by_cost
    (s : RateLimiter) (key identifier : String) (rule : RateLimitRule)
    (now : ℚ) (cost : Int)
    (hr : dictGet s.rules key = some rule)
    (hper : 0 < rule.period_seconds) (hqpp : 0 < rule.requests_per_period) :
    (rule.strategy = RateLimitStrategy.fixed_window →
      ∀ count window reset_time : Int,
        fixedPre rule (dictGet s.counters (counterKey key identifier)) (pyInt now)
          = (count, window, reset_time) →
        (∀ b, rule.burst_limit = some b → b = 0 ∨ count < b) →
        count + cost ≤ rule.requests_per_period →
        (check_limit s key identifier now cost).map
            (fun r => (r.1.1, dictGet r.2.counters (counterKey key identifier)))
          = some (true, some (Counter.fixedWindow (count + cost) window reset_time))) ∧
    (rule.strategy = RateLimitStrategy.sliding_window →
      ∀ ts : List ℚ,
        slidingPre (dictGet s.counters (counterKey key identifier))
          (now - (rule.period_seconds : ℚ)) = some ts →
        (ts.length : Int) + cost ≤ rule.requests_per_period →
        (check_limit s key identifier now cost).map
            (fun r => (r.1.1, dictGet r.2.counters (counterKey key identifier)))
          = some (true, some (Counter.slidingWindow (ts ++ List.replicate cost.toNat now)
              ((ts.length : Int) + cost)))) ∧
    (rule.strategy = RateLimitStrategy.token_bucket →
      ∀ tokens last_update : ℚ,
        tokenPre rule (dictGet s.counters (counterKey key identifier)) now
          = some (tokens, last_update) →
        (cost : ℚ) ≤ tokenRefill rule tokens last_update now →
        (check_limit s key identifier now cost).map
            (fun r => (r.1.1, dictGet r.2.counters (counterKey key identifier)))
          = some (true, some (Counter.tokenBucket
              (tokenRefill rule tokens last_update now - (cost : ℚ)) now))) ∧
    (rule.strategy = RateLimitStrategy.leaky_bucket →
      ∀ water last_leak capacity : ℚ,
        leakyPre rule (dictGet s.counters (counterKey key identifier)) now
          = some (water, last_leak, capacity) →
        leakyDrain rule water last_leak now + (cost : ℚ) ≤ capacity →
        (check_limit s key identifier now cost).map
            (fun r => (r.1.1, dictGet r.2.counters (counterKey key identifier)))
          = some (true, some (Counter.leakyBucket
              (leakyDrain rule water last_leak now + (cost : ℚ)) now capacity))) := by
  have hper' : rule.period_seconds ≠ 0 := hper.ne'
  have hrefill : refillRate rule ≠ 0 := (refillRate_pos rule hper hqpp).ne'
  refine ⟨?_, ?_, ?_, ?_⟩
  · intro hstrat count window reset_time hpre hburst hquota
    rw [check_limit_eq_fixed s key identifier now cost rule hr hstrat,
      checkFixedWindow_allow rule _ (pyInt now) cost count window reset_time hper'
        hpre hburst hquota]
    simp [dictGet_dictSet_self]
  · intro hstrat ts hpre hquota
    obtain ⟨info, heq⟩ :=
      checkSlidingWindow_allow rule
        (dictGet s.counters (counterKey key identifier)) now cost ts hpre hquota
    rw [check_limit_eq_sliding s key identifier now cost rule hr hstrat, heq]
    simp [dictGet_dictSet_self]
  · intro hstrat tokens last_update hpre henough
    rw [check_limit_eq_token s key identifier now cost rule hr hstrat,
      checkTokenBucket_allow rule _ now cost tokens last_update hper' hrefill hpre henough]
    simp [dictGet_dictSet_self]
  · intro hstrat water last_leak capacity hpre hroom
    rw [check_limit_eq_leaky s key identifier now cost rule hr hstrat,
      checkLeakyBucket_allow rule _ now cost water last_leak capacity hper' hrefill
        hpre hroom]
    simp [dictGet_dictSet_self]

/-- C1 witness: on a fresh token bucket of capacity 20, a cost-5 check is
allowed and leaves exactly 15 tokens. -/
theorem c1_witness :
    (check_limit sTok "k" "u" 0 5).map
        (fun r => (r.1.1, dictGet r.2.counters (counterKey "k" "u")))
      = some (true, some (Counter.tokenBucket 15 0)) := by
  have h := (c1_allowed_check_moves_usage_by_cost sTok "k" "u" ruleTokenA 0 5 (by decide)
      (by decide) (by decide)).2.2.1 rfl (capQ ruleTokenA) 0 (by decide)
      (by norm_num [tokenRefill, capQ, capInt, pyOr, refillRate, ruleTokenA])
  have he : tokenRefill ruleTokenA (capQ ruleTokenA) 0 0 - ((5 : Int) : ℚ) = 15 := by
    norm_num [tokenRefill, capQ, capInt, pyOr, refillRate, ruleTokenA]
  rw [he] at h
  exact h

/-- C2: when no rule is registered for the key, check_limit returns
allowed = true with reason no_rule and leaves the limiter state, counters
included, untouched, for every identifier and cost. -/
theorem c2_no_rule_always_allows
    (s : RateLimiter) (key identifier : String) (now : ℚ) (cost : Int)
    (h : dictGet s.rules key = none) :
    check_limit s key identifier now cost = some ((true, CheckInfo.noRule), s) ∧
    CheckInfo.reason CheckInfo.noRule = some "no_rule" :=
  ⟨by simp [check_limit, h], rfl⟩

/-- C2 witness: a check against an empty rule table at cost 7. -/
theorem c2_witness :
    check_limit emptyLimiter "nokey" "u" 3 7 = some ((true, CheckInfo.noRule), emptyLimiter) :=
  (c2_no_rule_always_allows emptyLimiter "nokey" "u" 3 7 (by decide)).1

/-- C3 counterexample: for a rule whose cost_per_request is 5, an
omitted-cost check is allowed while an explicit check with
cost = cost_per_request is denied, so the two do not behave identically:
the omitted cost is the literal 1 of the signature, not the rule's
cost_per_request. -/
theorem c3_counterexample :
    (check_limit_default sCpr5 "k" "u" 0).map (fun r => r.1.1) = some true ∧
    (check_limit sCpr5 "k" "u" 0 ruleCpr5.cost_per_request).map (fun r => r.1.1)
      = some false := by decide

/-- C3 amended: an omitted-cost check always charges cost 1, the default
hard-wired in the signature of check_limit; it coincides with an explicit
check at cost = cost_per_request exactly for rules whose cost_per_request
is 1. -/
theorem c3_amended_default_cost_is_one
    (s : RateLimiter) (key identifier : String) (now : ℚ) (rule : RateLimitRule)
    (_hr : dictGet s.rules key = some rule)
    (hc : rule.cost_per_request = 1) :
    check_limit_default s key identifier now =
      check_limit s key identifier now rule.cost_per_request := by
  rw [hc]; rfl

/-- C3 amended witness: for a rule with cost_per_request = 1 the two calls
agree. -/
theorem c3_amended_witness :
    check_limit_default sCpr1 "k" "u" 0 =
      check_limit sCpr1 "k" "u" 0 ruleCpr1.cost_per_request :=
  c3_amended_default_cost_is_one sCpr1 "k" "u" 0 ruleCpr1 (by decide) (by decide)

/-- C4: add_rule performs no validation: a rule with period_seconds = 0 is
stored as-is in the rule table, and the very next check for that key hits
the division by zero (modelled as none) instead of having been rejected at
registration time. -/
theorem c4_add_rule_stores_invalid_rule :
    dictGet (add_rule emptyLimiter "k" badRule).rules "k" = some badRule ∧
    check_limit (add_rule emptyLimiter "k" badRule) "k" "u" 5 1 = none := by decide

theorem checkFixedWindow_burst (rule : RateLimitRule) (cnt : Option Counter)
    (nowI cost b count window reset_time : Int)
    (hper : rule.period_seconds ≠ 0)
    (hb : rule.burst_limit = some b) (hb0 : b ≠ 0)
    (hpre : fixedPre rule cnt nowI = (count, window, reset_time))
    (hhit : b ≤ count) :
    checkFixedWindow rule cnt nowI cost =
      some ((false, CheckInfo.fixedBurstDeny (reset_time - nowI) count b),
            Counter.fixedWindow count window reset_time) := by
  have hbh :
      (match rule.burst_limit with
       | some b => if b = 0 then false else decide (b ≤ count)
       | none => false) = true := by
    simp [hb, hb0, decide_eq_true hhit]
  simp only [checkFixedWindow, if_neg hper, hpre, hbh, if_true]
  simp [pyOr, hb, hb0]

/-- C5: for a fixed-window rule with a (positive) burst limit, a check
whose window count has already reached the burst limit is denied with
reason burst_limit_exceeded for every cost, the count is left unchanged
(cost is never added), and the burst test fires before the
requests_per_period quota test since cost is universally quantified here. -/
theorem c5_burst_precedes_quota_and_ignores_cost
    (s : RateLimiter) (key identifier : String) (rule : RateLimitRule)
    (now : ℚ) (cost b count window reset_time : Int)
    (hr : dictGet s.rules key = some rule)
    (hstrat : rule.strategy = RateLimitStrategy.fixed_window)
    (hper : 0 < rule.period_seconds)
    (hb : rule.burst_limit = some b) (hbpos : 0 < b)
    (hpre : fixedPre rule (dictGet s.counters (counterKey key identifier)) (pyInt now)
      = (count, window, reset_time))
    (hhit : b ≤ count) :
    (check_limit s key identifier now cost).map
        (fun r => (r.1.1, CheckInfo.reason r.1.2,
          dictGet r.2.counters (counterKey key identifier)))
      = some (false, some "burst_limit_exceeded",
          some (Counter.fixedWindow count window reset_time)) := by
  rw [check_limit_eq_fixed s key identifier now cost rule hr hstrat,
    checkFixedWindow_burst rule _ (pyInt now) cost b count window reset_time hper.ne'
      hb hbpos.ne' hpre hhit]
  simp [dictGet_dictSet_self, CheckInfo.reason]

/-- C5 witness: with burst limit 2 and an existing window count of 2, a
cost-1 check (which would pass the quota test 3 <= 100) is still denied
with reason burst_limit_exceeded and the count stays 2. -/
theorem c5_witness :
    (check_limit sFB "k" "u" 5 1).map
        (fun r => (r.1.1, CheckInfo.reason r.1.2,
          dictGet r.2.counters (counterKey "k" "u")))
      = some (false, some "burst_limit_exceeded",
          some (Counter.fixedWindow 2 0 60)) :=
  c5_burst_precedes_quota_and_ignores_cost sFB "k" "u" ruleFB 5 1 2 2 0 60
    (by decide) rfl (by decide) (by decide) (by decide) (by decide) (by decide)

theorem checkSlidingWindow_deny (rule : RateLimitRule) (cnt : Option Counter)
    (now : ℚ) (cost : Int) (ts : List ℚ)
    (hpre : slidingPre cnt (now - (rule.period_seconds : ℚ)) = some ts)
    (hdeny : rule.requests_per_period < (ts.length : Int) + cost) :
    checkSlidingWindow rule cnt now cost =
      some ((false,
             CheckInfo.slidingDeny (max 0 (listMinD ts now + (rule.period_seconds : ℚ) - now))
               ts.length rule.requests_per_period),
            Counter.slidingWindow ts ts.length) := by
  simp only [checkSlidingWindow, hpre, if_pos hdeny]

theorem foldl_min_self_or_mem (t : List ℚ) (a : ℚ) :
    t.foldl min a = a ∨ t.foldl min a ∈ t := by
  induction t generalizing a with
  | nil => exact Or.inl rfl
  | cons x xs ih =>
      rcases ih (min a x) with h | h
      · rcases min_choice a x with h' | h'
        · exact Or.inl (by rw [List.foldl_cons, h, h'])
        · exact Or.inr (by rw [List.foldl_cons, h, h']; exact List.mem_cons_self x xs)
      · exact Or.inr (List.mem_cons_of_mem x (by rw [List.foldl_cons]; exact h))

theorem listMinD_mem (h : ℚ) (t : List ℚ) (d : ℚ) : listMinD (h :: t) d ∈ h :: t := by
  rcases foldl_min_self_or_mem t h with he | he
  · rw [listMinD, he]; exact List.mem_cons_self h t
  · exact List.mem_cons_of_mem h (by rw [listMinD]; exact he)

theorem slidingPre_mem (cnt : Option Counter) (ws : ℚ) (ts : List ℚ)
    (hpre : slidingPre cnt ws = some ts) : ∀ x ∈ ts, ws < x := by
  cases cnt with
  | none =>
      simp only [slidingPre, Option.some_inj] at hpre
      subst hpre
      intro x hx
      cases hx
  | some c =>
      cases c with
      | slidingWindow l n =>
          simp only [slidingPre, Option.some_inj] at hpre
          subst hpre
          intro x hx
          exact of_decide_eq_true (List.mem_filter.mp hx).2
      | fixedWindow a b c => exact absurd hpre (by simp [slidingPre])
      | tokenBucket a b => exact absurd hpre (by simp [slidingPre])
      | leakyBucket a b c => exact absurd hpre (by simp [slidingPre])

/-- C6 counterexample: for sliding-window rule 3 per 60 s, a fresh
identifier checked with cost 4 is denied while the counter holds no
timestamps after pruning, and the reported reset_in is 60 (the period),
not 0 as the claim states. -/
theorem c6_counterexample :
    (check_limit sSlid "k" "u" 100 4).map (fun r => r.1.2)
      = some (CheckInfo.slidingDeny 60 0 3) ∧ (60 : ℚ) ≠ 0 := by
  constructor
  · rw [check_limit_eq_sliding sSlid "k" "u" 100 4 ruleSlid (by decide) rfl]
    rw [checkSlidingWindow_deny ruleSlid (dictGet sSlid.counters (counterKey "k" "u"))
      100 4 [] (by decide) (by decide)]
    norm_num [Option.map, listMinD, ruleSlid]
  · norm_num

/-- C6 amended: a denied sliding-window check reports
reset_in = oldest_timestamp + periodSeconds - now when timestamps remain
after pruning (the clamp at 0 is inert there, since pruned timestamps all
lie strictly inside the window), but when no timestamps remain after
pruning it reports reset_in = periodSeconds, not 0. -/
theorem c6_amended_denied_reset_in
    (s : RateLimiter) (key identifier : String) (rule : RateLimitRule)
    (now : ℚ) (cost : Int) (ts : List ℚ)
    (hr : dictGet s.rules key = some rule)
    (hstrat : rule.strategy = RateLimitStrategy.sliding_window)
    (hper : 0 < rule.period_seconds)
    (hpre : slidingPre (dictGet s.counters (counterKey key identifier))
      (now - (rule.period_seconds : ℚ)) = some ts)
    (hdeny : rule.requests_per_period < (ts.length : Int) + cost) :
    (check_limit s key identifier now cost).map (fun r => r.1.2)
      = some (CheckInfo.slidingDeny
          (match ts with
           | [] => (rule.period_seconds : ℚ)
           | h :: t => listMinD (h :: t) now + (rule.period_seconds : ℚ) - now)
          ts.length rule.requests_per_period) := by
  have hmax : max 0 (listMinD ts now + (rule.period_seconds : ℚ) - now)
      = (match ts with
         | [] => (rule.period_seconds : ℚ)
         | h :: t => listMinD (h :: t) now + (rule.period_seconds : ℚ) - now) := by
    cases ts with
    | nil =>
        have h0 : (0 : ℚ) ≤ (rule.period_seconds : ℚ) := by exact_mod_cast hper.le
        have h1 : listMinD [] now + (rule.period_seconds : ℚ) - now
            = (rule.period_seconds : ℚ) := by
          rw [listMinD]; ring
        rw [h1]
        exact max_eq_right h0
    | cons h t =>
        have hm := slidingPre_mem _ _ _ hpre (listMinD (h :: t) now) (listMinD_mem h t now)
        have h0 : (0 : ℚ) ≤ listMinD (h :: t) now + (rule.period_seconds : ℚ) - now := by
          linarith
        exact max_eq_right h0
  rw [check_limit_eq_sliding s key identifier now cost rule hr hstrat,
    checkSlidingWindow_deny rule _ now cost ts hpre hdeny]
  simp [Option.map, hmax]

/-- C6 amended witness: with one surviving timestamp at t = 10 and period
60, a denied check at now = 30 reports reset_in = 10 + 60 - 30 = 40. -/
theorem c6_amended_witness :
    (check_limit sSlid2 "k" "u" 30 2).map (fun r => r.1.2)
      = some (CheckInfo.slidingDeny 40 1 2) := by
  have h := c6_amended_denied_reset_in sSlid2 "k" "u" ruleSlid2 30 2 [10]
    (by decide) rfl (by decide)
    (by
      have hg : dictGet sSlid2.counters (counterKey "k" "u")
          = some (Counter.slidingWindow [10] 1) := by decide
      rw [hg]
      norm_num [slidingPre, List.filter, ruleSlid2])
    (by decide)
  have h2 : CheckInfo.slidingDeny (listMinD [10] 30 + (ruleSlid2.period_seconds : ℚ) - 30) 1 2
      = CheckInfo.slidingDeny 40 1 2 := by
    norm_num [listMinD, ruleSlid2]
  exact h.trans (congrArg some h2)

/-- C7: evaluation at the failing input of the time_to_full diagnostic.
For token-bucket rule 10 per 60 s with burst 20 (capacity 20), a fresh
cost-5 check is allowed and reports tokens_remaining = 15 and
refill_rate = 1/6 as the claim states, but reports time_to_full = 120 =
burstLimit / refill_rate, whereas
(capacity - remaining tokens) / refill rate = 30: the expression
(burst_limit or requests_per_period - tokens) / refill_rate groups as
(burst_limit or (requests_per_period - tokens)) / refill_rate. -/
theorem c7_time_to_full_at_failing_input :
    (check_limit sTok "k" "u" 0 5).map (fun r => r.1.2)
      = some (CheckInfo.tokenAllow 15 (1 / 6 : ℚ) 120) ∧
    (capQ ruleTokenA - 15) / (1 / 6 : ℚ) = 30 ∧ (120 : ℚ) ≠ 30 := by
  refine ⟨?_, by norm_num [capQ, capInt, pyOr, ruleTokenA], by norm_num⟩
  rw [check_limit_eq_token sTok "k" "u" 0 5 ruleTokenA (by decide) rfl,
    checkTokenBucket_allow ruleTokenA (dictGet sTok.counters (counterKey "k" "u")) 0 5
      (capQ ruleTokenA) 0 (by decide) (by norm_num [refillRate, ruleTokenA]) (by decide)
      (by norm_num [tokenRefill, capQ, capInt, pyOr, refillRate, ruleTokenA])]
  norm_num [Option.map, tokenRefill, timeToFullNum, capQ, capInt, pyOr, refillRate, ruleTokenA]

/-- C8: cleanup_old_entries keeps exactly the counter entries that are
not stale buckets: a token-bucket entry survives iff now - last_update
is at most max_age_seconds, a leaky-bucket entry iff now - last_leak is
at most max_age_seconds, and fixed-window and sliding-window entries
always survive, whatever their age. -/
theorem c8_cleanup_evicts_exactly_stale_buckets
    (s : RateLimiter) (now : ℚ) (max_age : Int) (ck : String) (c : Counter) :
    (ck, c) ∈ (cleanup_old_entries s now max_age).counters ↔
      ((ck, c) ∈ s.counters ∧
        match c with
        | Counter.fixedWindow _ _ _ => True
        | Counter.slidingWindow _ _ => True
        | Counter.tokenBucket _ last_update => now - last_update ≤ (max_age : ℚ)
        | Counter.leakyBucket _ last_leak _ => now - last_leak ≤ (max_age : ℚ)) := by
  rw [cleanup_old_entries]
  simp only [List.mem_filter, Bool.not_eq_eq_eq_not, Bool.not_true]
  constructor
  · rintro ⟨hmem, hkeep⟩
    refine ⟨hmem, ?_⟩
    cases c with
    | fixedWindow a b d => trivial
    | slidingWindow a b => trivial
    | tokenBucket a lu =>
        simp only [staleCounter, Bool.not_eq_true, decide_eq_false_iff_not, not_lt] at hkeep
        exact hkeep
    | leakyBucket a ll cp =>
        simp only [staleCounter, Bool.not_eq_true, decide_eq_false_iff_not, not_lt] at hkeep
        exact hkeep
  · rintro ⟨hmem, hkeep⟩
    refine ⟨hmem, ?_⟩
    cases c with
    | fixedWindow a b d => rfl
    | slidingWindow a b => rfl
    | tokenBucket a lu =>
        simp only [staleCounter, Bool.not_eq_true, decide_eq_false_iff_not, not_lt]
        exact hkeep
    | leakyBucket a ll cp =>
        simp only [staleCounter, Bool.not_eq_true, decide_eq_false_iff_not, not_lt]
        exact hkeep

/-- C8 witness: in a table with a fresh fixed-window entry and a
token-bucket entry idle for 100000 s, a sweep with max age 10 keeps the
window entry (it is never evicted) and the bucket entry is gone. -/
theorem c8_witness :
    ("a:x", Counter.fixedWindow 1 0 60) ∈ (cleanup_old_entries sMixed 100000 10).counters ∧
    ¬ ("b:y", Counter.tokenBucket 5 0) ∈ (cleanup_old_entries sMixed 100000 10).counters := by
  constructor
  · exact (c8_cleanup_evicts_exactly_stale_buckets sMixed 100000 10 "a:x"
      (Counter.fixedWindow 1 0 60)).mpr ⟨by decide, trivial⟩
  · intro hmem
    have h := (c8_cleanup_evicts_exactly_stale_buckets sMixed 100000 10 "b:y"
      (Counter.tokenBucket 5 0)).mp hmem
    have h2 : ¬ ((100000 : ℚ) - 0 ≤ (10 : Int)) := by norm_num
    exact h2 h.2

theorem map_proj_setCounter (s t : RateLimiter) (ck : String)
    (res : Option ((Bool × CheckInfo) × Counter)) :
    (res.map (fun r => (r.1, { s with counters := dictSet s.counters ck r.2 }))).map
        (fun r => (r.1, dictGet r.2.counters ck))
      = (res.map (fun r => (r.1, { t with counters := dictSet t.counters ck r.2 }))).map
        (fun r => (r.1, dictGet r.2.counters ck)) := by
  cases res with
  | none => rfl
  | some rc => simp [Option.map, dictGet_dictSet_self]

theorem check_limit_proj_ext (s t : RateLimiter) (key identifier : String) (now : ℚ)
    (cost : Int)
    (h1 : dictGet s.rules key = dictGet t.rules key)
    (h2 : dictGet s.counters (counterKey key identifier)
        = dictGet t.counters (counterKey key identifier)) :
    (check_limit s key identifier now cost).map
        (fun r => (r.1, dictGet r.2.counters (counterKey key identifier)))
      = (check_limit t key identifier now cost).map
        (fun r => (r.1, dictGet r.2.counters (counterKey key identifier))) := by
  simp only [check_limit, h1, h2]
  cases hr : dictGet t.rules key with
  | none => simp [Option.map, h2]
  | some rule => exact map_proj_setCounter s t (counterKey key identifier) _

/-- C9: reset_limit followed by a check behaves exactly like the same
check against a limiter with the same rule entry for the key and no
counter for the pair (a never-checked identifier): same allow decision,
same info dict, same resulting counter entry for the pair, at the same
instant and cost. -/
theorem c9_reset_then_check_is_fresh_check
    (s t : RateLimiter) (key identifier : String) (now : ℚ) (cost : Int)
    (hrules : dictGet s.rules key = dictGet t.rules key)
    (hfresh : dictGet t.counters (counterKey key identifier) = none) :
    (check_limit (reset_limit s key identifier) key identifier now cost).map
        (fun r => (r.1, dictGet r.2.counters (counterKey key identifier)))
      = (check_limit t key identifier now cost).map
        (fun r => (r.1, dictGet r.2.counters (counterKey key identifier))) := by
  apply check_limit_proj_ext
  · rw [reset_limit_rules, hrules]
  · rw [reset_limit_counter_none, hfresh]

/-- C9 witness: resetting a pair that has a used token bucket and then
checking coincides with checking a limiter that never saw the pair. -/
theorem c9_witness :
    (check_limit (reset_limit sTokUsed "k" "u") "k" "u" 0 5).map
        (fun r => (r.1, dictGet r.2.counters (counterKey "k" "u")))
      = (check_limit sTok "k" "u" 0 5).map
        (fun r => (r.1, dictGet r.2.counters (counterKey "k" "u"))) :=
  c9_reset_then_check_is_fresh_check sTokUsed sTok "k" "u" 0 5 (by decide) (by decide)

theorem capQ_pos (rule : RateLimitRule)
    (hqpp : 0 < rule.requests_per_period)
    (hburst : ∀ b, rule.burst_limit = some b → 0 < b) :
    0 < capQ rule := by
  have h : 0 < capInt rule := by
    rw [capInt]
    cases hb : rule.burst_limit with
    | none => simpa [pyOr] using hqpp
    | some b =>
        have hbpos := hburst b hb
        simpa [pyOr, hbpos.ne'] using hbpos
  rw [capQ]
  exact_mod_cast h

theorem bucketOk_mono (rule : RateLimitRule) (ck : String) (t0 t1 : ℚ)
    (s : RateLimiter) (h01 : t0 ≤ t1) (hok : bucketOk rule ck t0 s) :
    bucketOk rule ck t1 s := by
  rw [bucketOk] at hok ⊢
  cases hc : dictGet s.counters ck with
  | none => trivial
  | some c =>
      rw [hc] at hok
      cases c with
      | fixedWindow a b d => exact hok
      | slidingWindow a b => exact hok
      | tokenBucket tk lu => exact ⟨hok.1, hok.2.1, hok.2.2.1, hok.2.2.2.trans h01⟩
      | leakyBucket w ll cp =>
          exact ⟨hok.1, hok.2.1, hok.2.2.1, hok.2.2.2.1, hok.2.2.2.2.trans h01⟩

theorem bucketOk_levelOk (rule : RateLimitRule) (ck : String) (t0 : ℚ)
    (s : RateLimiter) (hok : bucketOk rule ck t0 s) :
    bucketLevelOk rule ck s := by
  rw [bucketOk] at hok
  rw [bucketLevelOk]
  cases hc : dictGet s.counters ck with
  | none => trivial
  | some c =>
      rw [hc] at hok
      cases c with
      | fixedWindow a b d => exact hok
      | slidingWindow a b => exact hok
      | tokenBucket tk lu => exact ⟨hok.2.1, hok.2.2.1⟩
      | leakyBucket w ll cp => exact ⟨hok.2.1, hok.2.2.1, hok.2.2.2.1⟩

theorem checkTokenBucket_preserves (rule : RateLimitRule) (cnt : Option Counter)
    (now : ℚ) (cost : Int) (tokens lu : ℚ)
    (hper : 0 < rule.period_seconds) (hqpp : 0 < rule.requests_per_period)
    (hcap : 0 < capQ rule)
    (hpre : tokenPre rule cnt now = some (tokens, lu))
    (ht0 : 0 ≤ tokens) (hlu : lu ≤ now) (hcost : 0 ≤ cost) :
    ∃ rc, checkTokenBucket rule cnt now cost = some rc ∧
      ∃ tk, rc.2 = Counter.tokenBucket tk now ∧ 0 ≤ tk ∧ tk ≤ capQ rule := by
  have hrefill : refillRate rule ≠ 0 := (refillRate_pos rule hper hqpp).ne'
  have hmul : 0 ≤ (now - lu) * refillRate rule :=
    mul_nonneg (by linarith) (refillRate_pos rule hper hqpp).le
  have hrf0 : 0 ≤ tokenRefill rule tokens lu now := by
    have h2 : 0 ≤ tokens + (now - lu) * refillRate rule := by linarith
    exact le_min hcap.le h2
  have hrfc : tokenRefill rule tokens lu now ≤ capQ rule := min_le_left _ _
  by_cases hd : tokenRefill rule tokens lu now < (cost : ℚ)
  · have hcheck : checkTokenBucket rule cnt now cost =
        some ((false,
               CheckInfo.tokenDeny
                 (((cost : ℚ) - tokenRefill rule tokens lu now) / refillRate rule)
                 (tokenRefill rule tokens lu now) cost),
              Counter.tokenBucket (tokenRefill rule tokens lu now) now) := by
      simp only [checkTokenBucket, if_neg hper.ne', hpre, if_pos hd, if_neg hrefill]
    exact ⟨_, hcheck, tokenRefill rule tokens lu now, rfl, hrf0, hrfc⟩
  · have hcheck : checkTokenBucket rule cnt now cost =
        some ((true,
               CheckInfo.tokenAllow (tokenRefill rule tokens lu now - (cost : ℚ))
                 (refillRate rule)
                 (timeToFullNum rule (tokenRefill rule tokens lu now - (cost : ℚ)) /
                   refillRate rule)),
              Counter.tokenBucket (tokenRefill rule tokens lu now - (cost : ℚ)) now) := by
      simp only [checkTokenBucket, if_neg hper.ne', hpre, if_neg hd, if_neg hrefill]
    refine ⟨_, hcheck, tokenRefill rule tokens lu now - (cost : ℚ), rfl, ?_, ?_⟩
    · have := not_lt.mp hd
      linarith
    · have hc0 : (0 : ℚ) ≤ (cost : ℚ) := by exact_mod_cast hcost
      linarith

theorem checkLeakyBucket_preserves (rule : RateLimitRule) (cnt : Option Counter)
    (now : ℚ) (cost : Int) (water ll cap' : ℚ)
    (hper : 0 < rule.period_seconds) (hqpp : 0 < rule.requests_per_period)
    (hcap : 0 < capQ rule)
    (hpre : leakyPre rule cnt now = some (water, ll, cap'))
    (_hw0 : 0 ≤ water) (hwc : water ≤ cap') (hcc : cap' = capQ rule)
    (hll : ll ≤ now) (hcost : 0 ≤ cost) :
    ∃ rc, checkLeakyBucket rule cnt now cost = some rc ∧
      ∃ w, rc.2 = Counter.leakyBucket w now cap' ∧ 0 ≤ w ∧ w ≤ cap' := by
  have hrate : refillRate rule ≠ 0 := (refillRate_pos rule hper hqpp).ne'
  have hmul : 0 ≤ (now - ll) * refillRate rule :=
    mul_nonneg (by linarith) (refillRate_pos rule hper hqpp).le
  have hd0 : 0 ≤ leakyDrain rule water ll now := le_max_left _ _
  have hdc : leakyDrain rule water ll now ≤ cap' := by
    rw [leakyDrain]
    apply max_le
    · rw [hcc]; exact hcap.le
    · linarith
  by_cases hd : cap' < leakyDrain rule water ll now + (cost : ℚ)
  · have hcheck : checkLeakyBucket rule cnt now cost =
        some ((false,
               CheckInfo.leakyDeny
                 ((leakyDrain rule water ll now + (cost : ℚ) - cap') / refillRate rule)
                 (leakyDrain rule water ll now) cap'),
              Counter.leakyBucket (leakyDrain rule water ll now) now cap') := by
      simp only [checkLeakyBucket, if_neg hper.ne', hpre, if_pos hd, if_neg hrate]
    exact ⟨_, hcheck, leakyDrain rule water ll now, rfl, hd0, hdc⟩
  · have hcheck : checkLeakyBucket rule cnt now cost =
        some ((true,
               CheckInfo.leakyAllow (leakyDrain rule water ll now + (cost : ℚ))
                 ((leakyDrain rule water ll now + (cost : ℚ)) / refillRate rule)
                 (cap' - (leakyDrain rule water ll now + (cost : ℚ)))),
              Counter.leakyBucket (leakyDrain rule water ll now + (cost : ℚ)) now cap') := by
      simp only [checkLeakyBucket, if_neg hper.ne', hpre, if_neg hd, if_neg hrate]
    refine ⟨_, hcheck, leakyDrain rule water ll now + (cost : ℚ), rfl, ?_, not_lt.mp hd⟩
    have hc0 : (0 : ℚ) ≤ (cost : ℚ) := by exact_mod_cast hcost
    linarith

theorem check_limit_step_bucketOk
    (s : RateLimiter) (key identifier : String) (rule : RateLimitRule)
    (now : ℚ) (cost : Int)
    (hr : dictGet s.rules key = some rule)
    (hstrat : rule.strategy = RateLimitStrategy.token_bucket ∨
      rule.strategy = RateLimitStrategy.leaky_bucket)
    (hper : 0 < rule.period_seconds) (hqpp : 0 < rule.requests_per_period)
    (hcap : 0 < capQ rule)
    (hok : bucketOk rule (counterKey key identifier) now s)
    (hcost : 0 ≤ cost) :
    ∃ r s', check_limit s key identifier now cost = some (r, s') ∧
      s'.rules = s.rules ∧
      bucketOk rule (counterKey key identifier) now s' := by
  rcases hstrat with hstrat | hstrat
  · have hpreEx : ∃ tokens lu,
        tokenPre rule (dictGet s.counters (counterKey key identifier)) now
          = some (tokens, lu) ∧ 0 ≤ tokens ∧ tokens ≤ capQ rule ∧ lu ≤ now := by
      rw [bucketOk] at hok
      cases hc : dictGet s.counters (counterKey key identifier) with
      | none => exact ⟨capQ rule, now, rfl, hcap.le, le_refl _, le_refl _⟩
      | some c =>
          rw [hc] at hok
          cases c with
          | tokenBucket tk lu =>
              exact ⟨tk, lu, rfl, hok.2.1, hok.2.2.1, hok.2.2.2⟩
          | fixedWindow a b d => exact hok.elim
          | slidingWindow a b => exact hok.elim
          | leakyBucket a b d => exact absurd (hok.1.symm.trans hstrat) (by decide)
    obtain ⟨tokens, lu, hpre, ht0, htc, hlu⟩ := hpreEx
    obtain ⟨rc, hcheck, tk, hrc2, htk0, htkc⟩ :=
      checkTokenBucket_preserves rule _ now cost tokens lu hper hqpp hcap hpre ht0 hlu hcost
    refine ⟨rc.1,
      { s with counters := dictSet s.counters (counterKey key identifier) rc.2 },
      ?_, rfl, ?_⟩
    · rw [check_limit_eq_token s key identifier now cost rule hr hstrat, hcheck]; rfl
    · rw [bucketOk]
      simp only [dictGet_dictSet_self]
      rw [hrc2]
      exact ⟨hstrat, htk0, htkc, le_refl now⟩
  · have hpreEx : ∃ water ll cap',
        leakyPre rule (dictGet s.counters (counterKey key identifier)) now
          = some (water, ll, cap') ∧
        0 ≤ water ∧ water ≤ cap' ∧ cap' = capQ rule ∧ ll ≤ now := by
      rw [bucketOk] at hok
      cases hc : dictGet s.counters (counterKey key identifier) with
      | none =>
          exact ⟨0, now, capQ rule, rfl, le_refl _, hcap.le, rfl, le_refl _⟩
      | some c =>
          rw [hc] at hok
          cases c with
          | leakyBucket w ll cp =>
              exact ⟨w, ll, cp, rfl, hok.2.1, hok.2.2.1, hok.2.2.2.1,
                hok.2.2.2.2⟩
          | fixedWindow a b d => exact hok.elim
          | slidingWindow a b => exact hok.elim
          | tokenBucket a b => exact absurd (hok.1.symm.trans hstrat) (by decide)
    obtain ⟨water, ll, cap', hpre, hw0, hwc, hcc, hll⟩ := hpreEx
    obtain ⟨rc, hcheck, w, hrc2, hw0', hwc'⟩ :=
      checkLeakyBucket_preserves rule _ now cost water ll cap' hper hqpp hcap hpre
        hw0 hwc hcc hll hcost
    refine ⟨rc.1,
      { s with counters := dictSet s.counters (counterKey key identifier) rc.2 },
      ?_, rfl, ?_⟩
    · rw [check_limit_eq_leaky s key identifier now cost rule hr hstrat, hcheck]; rfl
    · rw [bucketOk]
      simp only [dictGet_dictSet_self]
      rw [hrc2]
      exact ⟨hstrat, hw0', hwc', hcc, le_refl now⟩

theorem runChecks_bucketOk
    (key identifier : String) (rule : RateLimitRule)
    (hstrat : rule.strategy = RateLimitStrategy.token_bucket ∨
      rule.strategy = RateLimitStrategy.leaky_bucket)
    (hper : 0 < rule.period_seconds) (hqpp : 0 < rule.requests_per_period)
    (hcap : 0 < capQ rule) :
    ∀ (steps : List (ℚ × Int)) (s : RateLimiter) (t0 : ℚ),
      dictGet s.rules key = some rule →
      bucketOk rule (counterKey key identifier) t0 s →
      (∀ p ∈ steps, 0 ≤ p.2) →
      (∀ p ∈ steps, t0 ≤ p.1) →
      steps.Pairwise (fun p q => p.1 ≤ q.1) →
      ∃ s', runChecks s key identifier steps = some s' ∧
        ∃ t1, bucketOk rule (counterKey key identifier) t1 s' := by
  intro steps
  induction steps with
  | nil =>
      intro s t0 hr hok _ _ _
      exact ⟨s, rfl, t0, hok⟩
  | cons p rest ih =>
      intro s t0 hr hok hcosts htimes hpair
      obtain ⟨now, cost⟩ := p
      have hok_now : bucketOk rule (counterKey key identifier) now s :=
        bucketOk_mono rule _ t0 now s (htimes (now, cost) (List.mem_cons_self _ _)) hok
      obtain ⟨r, s', hcheck, hrules, hok'⟩ :=
        check_limit_step_bucketOk s key identifier rule now cost hr hstrat hper hqpp hcap
          hok_now (hcosts (now, cost) (List.mem_cons_self _ _))
      have hr' : dictGet s'.rules key = some rule := by rw [hrules]; exact hr
      have hcosts' : ∀ q ∈ rest, 0 ≤ q.2 := fun q hq => hcosts q (List.mem_cons_of_mem _ hq)
      have htimes' : ∀ q ∈ rest, now ≤ q.1 := fun q hq =>
        (List.pairwise_cons.mp hpair).1 q hq
      have hpair' := (List.pairwise_cons.mp hpair).2
      obtain ⟨s'', hrun, t1, hok''⟩ := ih s' now hr' hok' hcosts' htimes' hpair'
      refine ⟨s'', ?_, t1, hok''⟩
      rw [runChecks, hcheck]
      exact hrun

/-- C10: under a fixed registered token-bucket or leaky-bucket rule with
positive quota and period and positive burst limit when present, any
sequence of checks with nonnegative costs at nondecreasing times, started
from a pair that has never been checked, keeps the stored level within
bounds after every check (every prefix of the sequence): tokens stay in
[0, capacity] and the water level stays in [0, capacity], where capacity
is burstLimit when present and requestsPerPeriod otherwise. -/
theorem c10_bucket_levels_stay_in_bounds
    (s : RateLimiter) (key identifier : String) (rule : RateLimitRule)
    (steps : List (ℚ × Int))
    (hr : dictGet s.rules key = some rule)
    (hstrat : rule.strategy = RateLimitStrategy.token_bucket ∨
      rule.strategy = RateLimitStrategy.leaky_bucket)
    (hper : 0 < rule.period_seconds) (hqpp : 0 < rule.requests_per_period)
    (hburst : ∀ b, rule.burst_limit = some b → 0 < b)
    (hfresh : dictGet s.counters (counterKey key identifier) = none)
    (hcost : ∀ p ∈ steps, 0 ≤ p.2)
    (hmono : steps.Pairwise (fun p q => p.1 ≤ q.1)) :
    ∀ pre suf, steps = pre ++ suf →
      ∃ s', runChecks s key identifier pre = some s' ∧
        bucketLevelOk rule (counterKey key identifier) s' := by
  intro pre suf hsplit
  subst hsplit
  have hcap := capQ_pos rule hqpp hburst
  have hcost' : ∀ p ∈ pre, 0 ≤ p.2 := fun p hp => hcost p (List.mem_append_left _ hp)
  have hpair' : pre.Pairwise (fun p q => p.1 ≤ q.1) := (List.pairwise_append.mp hmono).1
  cases pre with
  | nil =>
      refine ⟨s, rfl, ?_⟩
      rw [bucketLevelOk, hfresh]
      trivial
  | cons p0 rest =>
      have htimes : ∀ q ∈ p0 :: rest, p0.1 ≤ q.1 := by
        intro q hq
        rcases List.mem_cons.mp hq with h | h
        · rw [h]
        · exact (List.pairwise_cons.mp hpair').1 q h
      have hok0 : bucketOk rule (counterKey key identifier) p0.1 s := by
        rw [bucketOk, hfresh]
        trivial
      obtain ⟨s', hrun, t1, hok'⟩ :=
        runChecks_bucketOk key identifier rule hstrat hper hqpp hcap (p0 :: rest) s p0.1
          hr hok0 hcost' htimes hpair'
      exact ⟨s', hrun, bucketOk_levelOk rule (counterKey key identifier) t1 s' hok'⟩

/-- C10 witness: on a fresh no-burst token bucket of capacity 10, the
two-step sequence cost 3 at t = 0, cost 2 at t = 6 runs to completion and
the final token count lies in [0, 10]. -/
theorem c10_witness :
    ∃ s', runChecks sTokB "k" "u" [(0, 3), (6, 2)] = some s' ∧
      bucketLevelOk ruleTokenB (counterKey "k" "u") s' :=
  c10_bucket_levels_stay_in_bounds sTokB "k" "u" ruleTokenB [(0, 3), (6, 2)]
    (by decide) (Or.inl rfl) (by decide) (by decide)
    (fun b hb => by cases hb) (by decide)
    (by
      intro p hp
      rcases List.mem_cons.mp hp with h | h
      · rw [h]; decide
      · rcases List.mem_cons.mp h with h2 | h2
        · rw [h2]; decide
        · cases h2)
    (by
      constructor
      · intro q hq
        rcases List.mem_cons.mp hq with h | h
        · rw [h]; norm_num
        · cases h
      · constructor
        · intro q hq
          cases hq
        · constructor)
    [(0, 3), (6, 2)] [] rfl
